import Mathlib

/-!
Verification of the document-storage and vector-index core of a
document-ingestion-and-retrieval backend.

The Document Store (`LocalDocumentStorage`) is embedded from
`src/storage/document_storage.py`: the storage medium is modelled as the
root directory (an absolute path, given as a list of components measured
from the filesystem root) together with the association list of regular
files the root directory contains (name, content bytes).  The helper
`_get_full_path` of the source reduces an externally supplied filename to
its final path component with Python pathlib, `Path(filename).name`;
`pathlibName` below reproduces that function faithfully, including the
corner cases `Path("..").name = ".."` and `Path(".").name = ""`.  A name
equal to `""` denotes the root directory itself and a name equal to `".."`
denotes the parent directory of the root; both are directories on the real
medium (the constructor creates the root with `mkdir(parents=True)`), so
`is_file()` is false for them and opening them for writing fails with an
IsADirectoryError, which the source re-raises as IOError.  `isDirTarget`
captures exactly these two names.  `os.remove` may fail with an OSError
caught by the source; the Boolean oracle argument of `delete_document`
says whether the removal call of the underlying medium succeeds.
-/

/-- Python pathlib component splitting: cut a character list at every slash. -/
def splitSlash : List Char → List (List Char)
  | [] => [[]]
  | c :: rest =>
    match splitSlash rest with
    | [] => [[]]
    | comp :: comps =>
      if c = '/' then [] :: comp :: comps else (c :: comp) :: comps

/-- Python `Path(filename).name` (POSIX flavour): parse the string into
components, dropping empty components and `"."` components (pathlib does),
and return the last remaining component, or `""` when none remains.
Directory components are stripped; note `Path("..").name = ".."`. -/
def pathlibName (filename : String) : String :=
  let comps := (splitSlash filename.data).filter (fun c => !(c = [] || c = ['.']))
  String.mk (comps.getLastD [])

/-- The two possible values of `pathlibName` that do not denote a regular
file inside the root directory: `""` resolves to the root directory itself
and `".."` resolves to the parent directory of the root.  Both exist as
directories on the medium, so `is_file()` is false and write-opening fails. -/
def isDirTarget (n : String) : Bool := n = "" || n = ".."

/-- Lookup in an association list, first match wins. -/
def alistLookup {α β : Type} [DecidableEq α] : List (α × β) → α → Option β
  | [], _ => none
  | (k, v) :: rest, a => if k = a then some v else alistLookup rest a

/-- Overwrite the first binding of the key, or append a new binding. -/
def alistInsert {α β : Type} [DecidableEq α] : List (α × β) → α → β → List (α × β)
  | [], a, b => [(a, b)]
  | (k, v) :: rest, a, b =>
    if k = a then (a, b) :: rest else (k, v) :: alistInsert rest a b

/-- Remove every binding of the key. -/
def alistErase {α β : Type} [DecidableEq α] : List (α × β) → α → List (α × β)
  | [], _ => []
  | (k, v) :: rest, a =>
    if k = a then alistErase rest a else (k, v) :: alistErase rest a

/-- Decidable equality of `Except` values, needed so witnesses can be
checked by `decide`. -/
instance {ε α : Type} [DecidableEq ε] [DecidableEq α] : DecidableEq (Except ε α) := fun a b =>
  match a, b with
  | Except.ok x, Except.ok y => decidable_of_iff (x = y) (by simp)
  | Except.ok _, Except.error _ => Decidable.isFalse (by simp)
  | Except.error _, Except.ok _ => Decidable.isFalse (by simp)
  | Except.error u, Except.error v => decidable_of_iff (u = v) (by simp)

/-- Render an absolute path, given as the list of components measured from
the filesystem root, to its string form, one leading slash per component;
the empty list renders as the filesystem root. -/
def renderPathChars : List String → List Char
  | [] => []
  | c :: rest => '/' :: (c.data ++ renderPathChars rest)

/-- String form of an absolute path, as Python `str(path)` on a resolved path. -/
def renderPath (p : List String) : String :=
  if p = [] then "/" else String.mk (renderPathChars p)

/-- Whether a rendered path string is absolute, i.e. starts with a slash. -/
def isAbsolutePath (s : String) : Bool :=
  match s.data with
  | [] => false
  | c :: _ => c = '/'

/-- Errors surfaced by the Document Store: `notFound` embeds Python
FileNotFoundError, `ioFailure` embeds IOError / OSError. -/
inductive StorageError where
  | notFound
  | ioFailure
deriving DecidableEq, Repr

/-- State of `LocalDocumentStorage`: the resolved absolute root directory
(`base_path` in the source) and the regular files the root directory holds,
as an association list from entry name to content bytes. -/
structure LocalDocumentStorage where
  basePath : List String
  files : List (String × List Nat)
deriving DecidableEq, Repr

/-- Constructor `__init__` on a medium where the root directory holds no
files yet: `mkdir(parents=True, exist_ok=True)` creates the root idempotently. -/
def freshStore (basePath : List String) : LocalDocumentStorage :=
  ⟨basePath, []⟩

/-- Embeds `LocalDocumentStorage.save_document`: the touched path is
`base_path / Path(filename).name`; when that resolves to a directory
(name `""` or `".."`) the write-open fails and the source re-raises
IOError; otherwise the file is created or overwritten and the ORIGINAL
`filename` argument is returned (source line `return filename`). -/
def save_document (st : LocalDocumentStorage) (content : List Nat) (filename : String) :
    Except StorageError (String × LocalDocumentStorage) :=
  let n := pathlibName filename
  if isDirTarget n then Except.error StorageError.ioFailure
  else Except.ok (filename, { st with files := alistInsert st.files n content })

/-- Embeds `LocalDocumentStorage.get_document_content`: `is_file()` check
then read; a directory target or an absent entry raises FileNotFoundError. -/
def get_document_content (st : LocalDocumentStorage) (filename : String) :
    Except StorageError (List Nat) :=
  let n := pathlibName filename
  if isDirTarget n then Except.error StorageError.notFound
  else
    match alistLookup st.files n with
    | some c => Except.ok c
    | none => Except.error StorageError.notFound

/-- Embeds `LocalDocumentStorage.get_document_path`: `is_file()` check then
`str(full_path)` where `full_path = base_path / Path(filename).name`. -/
def get_document_path (st : LocalDocumentStorage) (filename : String) :
    Except StorageError String :=
  let n := pathlibName filename
  if isDirTarget n then Except.error StorageError.notFound
  else if (alistLookup st.files n).isSome then
    Except.ok (renderPath (st.basePath ++ [n]))
  else Except.error StorageError.notFound

/-- Embeds `LocalDocumentStorage.list_documents`: the names of the regular
files in the root directory. -/
def list_documents (st : LocalDocumentStorage) : List String :=
  st.files.map Prod.fst

/-- Embeds `LocalDocumentStorage.document_exists`: `is_file()` on the
touched path. -/
def document_exists (st : LocalDocumentStorage) (filename : String) : Bool :=
  let n := pathlibName filename
  if isDirTarget n then false else (alistLookup st.files n).isSome

/-- Embeds `LocalDocumentStorage.delete_document`.  `removeOk` is the
medium oracle: whether the `os.remove` call succeeds; when it fails the
source catches the OSError, prints a warning and returns `False` with the
file still in place. -/
def delete_document (st : LocalDocumentStorage) (filename : String) (removeOk : Bool) :
    Bool × LocalDocumentStorage :=
  let n := pathlibName filename
  if isDirTarget n then (false, st)
  else if (alistLookup st.files n).isSome then
    if removeOk then (true, { st with files := alistErase st.files n })
    else (false, st)
  else (false, st)

/-- Save a batch of (filename, content) jobs in order, embedding repeated
calls of `save_document`; a failing save leaves the state unchanged. -/
def saveAll (st : LocalDocumentStorage) (cf : String → List Nat) :
    List String → LocalDocumentStorage
  | [] => st
  | f :: fs =>
    match save_document st (cf f) f with
    | Except.ok r => saveAll r.2 cf fs
    | Except.error _ => saveAll st cf fs

-- Sanity checks of the pathlib embedding against Python behaviour.
example : pathlibName "../../etc/passwd" = "passwd" := by decide
example : pathlibName "a/b" = "b" := by decide
example : pathlibName "foo/" = "foo" := by decide
example : pathlibName ".." = ".." := by decide
example : pathlibName "." = "" := by decide
example : pathlibName "" = "" := by decide
example : pathlibName "/" = "" := by decide
example : pathlibName "a/./b" = "b" := by decide
example : pathlibName "doc_one.txt" = "doc_one.txt" := by decide
example : pathlibName "a/b/.." = ".." := by decide
example : renderPath ["data", "documents", "x.txt"] = "/data/documents/x.txt" := by decide

/-! ### Association-list lemmas -/

theorem alistLookup_insert_self {α β : Type} [DecidableEq α] (l : List (α × β)) (a : α) (b : β) :
    alistLookup (alistInsert l a b) a = some b := by
  induction l with
  | nil => simp [alistInsert, alistLookup]
  | cons p rest ih =>
    obtain ⟨k, v⟩ := p
    by_cases h : k = a
    · simp [alistInsert, h, alistLookup]
    · simp [alistInsert, h, alistLookup, ih]

theorem alistLookup_insert_ne {α β : Type} [DecidableEq α] (l : List (α × β)) (a a' : α) (b : β)
    (h : a' ≠ a) : alistLookup (alistInsert l a b) a' = alistLookup l a' := by
  have h2 : ¬(a = a') := fun e => h e.symm
  induction l with
  | nil => simp [alistInsert, alistLookup, h2]
  | cons p rest ih =>
    obtain ⟨k, v⟩ := p
    by_cases hk : k = a
    · subst hk
      simp [alistInsert, alistLookup, h2]
    · simp [alistInsert, hk, alistLookup, ih]

theorem alistLookup_erase_self {α β : Type} [DecidableEq α] (l : List (α × β)) (a : α) :
    alistLookup (alistErase l a) a = none := by
  induction l with
  | nil => simp [alistErase, alistLookup]
  | cons p rest ih =>
    obtain ⟨k, v⟩ := p
    by_cases h : k = a
    · simp [alistErase, h, ih]
    · simp [alistErase, h, alistLookup, ih]

theorem alistLookup_erase_ne {α β : Type} [DecidableEq α] (l : List (α × β)) (a a' : α)
    (h : a' ≠ a) : alistLookup (alistErase l a) a' = alistLookup l a' := by
  induction l with
  | nil => simp [alistErase]
  | cons p rest ih =>
    obtain ⟨k, v⟩ := p
    by_cases hk : k = a
    · subst hk
      have h2 : ¬(k = a') := fun e => h e.symm
      simp [alistErase, alistLookup, h2, ih]
    · simp [alistErase, hk, alistLookup, ih]

theorem alistInsert_of_lookup_none {α β : Type} [DecidableEq α] (l : List (α × β)) (a : α) (b : β)
    (h : alistLookup l a = none) : alistInsert l a b = l ++ [(a, b)] := by
  induction l with
  | nil => simp [alistInsert]
  | cons p rest ih =>
    obtain ⟨k, v⟩ := p
    by_cases hk : k = a
    · simp [alistLookup, hk] at h
    · simp [alistLookup, hk] at h
      simp [alistInsert, hk, ih h]

/-! ### Claims about the Document Store -/

/-- Claim C1: every Document Store operation touches only the path obtained
by joining the configured root directory with the base component
`pathlibName f` of the supplied filename.  A successful save stores the
content under that base name inside the root and leaves every other name
unchanged; reads only consult that base name; deletion only affects that
base name; and for the single base component that resolves outside the
root (`".."`, the parent directory of the root), every operation fails
cleanly with no state change, so nothing outside the root is ever read or
written.  In particular `save(c, "../../etc/passwd")` stores the content
under the base filename `"passwd"` inside the root. -/
theorem C1_path_confinement (st : LocalDocumentStorage) (c : List Nat) (f : String) :
    pathlibName "../../etc/passwd" = "passwd" ∧
    (∀ r st', save_document st c "../../etc/passwd" = Except.ok (r, st') →
      alistLookup st'.files "passwd" = some c) ∧
    (∀ r st', save_document st c f = Except.ok (r, st') →
      st'.basePath = st.basePath ∧
      isDirTarget (pathlibName f) = false ∧
      alistLookup st'.files (pathlibName f) = some c ∧
      ∀ m, m ≠ pathlibName f → alistLookup st'.files m = alistLookup st.files m) ∧
    (∀ c', get_document_content st f = Except.ok c' →
      alistLookup st.files (pathlibName f) = some c') ∧
    (∀ ok, (delete_document st f ok).2.basePath = st.basePath ∧
      ∀ m, m ≠ pathlibName f →
        alistLookup (delete_document st f ok).2.files m = alistLookup st.files m) ∧
    (pathlibName f = ".." →
      save_document st c f = Except.error StorageError.ioFailure ∧
      get_document_content st f = Except.error StorageError.notFound ∧
      get_document_path st f = Except.error StorageError.notFound ∧
      document_exists st f = false ∧
      ∀ ok, delete_document st f ok = (false, st)) := by
  refine ⟨by decide, ?_, ?_, ?_, ?_, ?_⟩
  · intro r st' h
    have hpw : pathlibName "../../etc/passwd" = "passwd" := by decide
    unfold save_document at h
    rw [hpw] at h
    simp [isDirTarget] at h
    rw [← h.2]
    exact alistLookup_insert_self st.files "passwd" c
  · intro r st' h
    unfold save_document at h
    by_cases hd : isDirTarget (pathlibName f)
    · simp [hd] at h
    · simp [hd] at h
      refine ⟨by rw [← h.2], by simpa using hd, ?_, ?_⟩
      · rw [← h.2]
        exact alistLookup_insert_self st.files (pathlibName f) c
      · intro m hm
        rw [← h.2]
        exact alistLookup_insert_ne st.files (pathlibName f) m c hm
  · intro c' h
    unfold get_document_content at h
    by_cases hd : isDirTarget (pathlibName f)
    · simp [hd] at h
    · simp [hd] at h
      cases hl : alistLookup st.files (pathlibName f) with
      | none => rw [hl] at h; simp at h
      | some v => rw [hl] at h; simp at h; rw [h]
  · intro ok
    unfold delete_document
    by_cases hd : isDirTarget (pathlibName f)
    · simp [hd]
    · simp [hd]
      cases hl : (alistLookup st.files (pathlibName f)).isSome with
      | false => simp
      | true =>
        simp
        cases ok with
        | false => simp
        | true =>
          simp
          intro m hm
          exact alistLookup_erase_ne st.files (pathlibName f) m hm
  · intro hpp
    have hd : isDirTarget (pathlibName f) = true := by
      rw [hpp]; decide
    refine ⟨?_, ?_, ?_, ?_, ?_⟩
    · unfold save_document; simp [hd]
    · unfold get_document_content; simp [hd]
    · unfold get_document_path; simp [hd]
    · unfold document_exists; simp [hd]
    · intro ok; unfold delete_document; simp [hd]

/-- Claim C2: saving content under a filename and then reading the same
filename back returns exactly the saved content, whatever the prior state
of the store was (last write wins, no versioning). -/
theorem C2_save_get_roundtrip (st : LocalDocumentStorage) (c : List Nat) (f : String)
    (r : String) (st' : LocalDocumentStorage)
    (h : save_document st c f = Except.ok (r, st')) :
    get_document_content st' f = Except.ok c := by
  unfold save_document at h
  by_cases hd : isDirTarget (pathlibName f)
  · simp [hd] at h
  · simp [hd] at h
    unfold get_document_content
    simp [hd, ← h.2, alistLookup_insert_self]

/-- Claim C1 witness: concrete instantiation — the traversal filename
stores under `"passwd"` inside the root, and a filename resolving to the
parent directory makes save fail with an IOError and no write. -/
theorem C1_path_confinement_witness :
    alistLookup
      (⟨["data", "documents"], [("passwd", [7])]⟩ : LocalDocumentStorage).files "passwd" =
      some [7] ∧
    save_document (freshStore ["data", "documents"]) [7] ".." =
      Except.error StorageError.ioFailure := by
  have h := C1_path_confinement (freshStore ["data", "documents"]) [7] ".."
  constructor
  · exact h.2.1 "../../etc/passwd" ⟨["data", "documents"], [("passwd", [7])]⟩ (by decide)
  · exact (h.2.2.2.2.2 (by decide)).1

/-- Claim C2 witness: concrete round-trip through a fresh store. -/
theorem C2_save_get_roundtrip_witness :
    get_document_content
      (⟨["data", "documents"], [("doc_one.txt", [1, 2, 3])]⟩ : LocalDocumentStorage)
      "doc_one.txt" = Except.ok [1, 2, 3] :=
  C2_save_get_roundtrip (freshStore ["data", "documents"]) [1, 2, 3] "doc_one.txt"
    "doc_one.txt" ⟨["data", "documents"], [("doc_one.txt", [1, 2, 3])]⟩ (by decide)

/-- Claim C3 counterexample: `save_document` returns its ORIGINAL filename
argument, not the normalized base filename the record was stored under:
saving `"../../etc/passwd"` stores the record under `"passwd"` but returns
the string `"../../etc/passwd"`, which differs from `"passwd"`. -/
theorem C3_counterexample :
    save_document (freshStore ["data", "documents"]) [7] "../../etc/passwd" =
      Except.ok ("../../etc/passwd",
        (⟨["data", "documents"], [("passwd", [7])]⟩ : LocalDocumentStorage)) ∧
    pathlibName "../../etc/passwd" = "passwd" ∧
    ("../../etc/passwd" : String) ≠ "passwd" := by decide

/-- Claim C3 as amended: a successful `save_document` returns the filename
argument exactly as supplied — not the normalized name — while the record
itself is stored under the normalized base component of the filename. -/
theorem C3_save_returns_original (st : LocalDocumentStorage) (c : List Nat) (f : String)
    (r : String) (st' : LocalDocumentStorage)
    (h : save_document st c f = Except.ok (r, st')) :
    r = f ∧ alistLookup st'.files (pathlibName f) = some c := by
  unfold save_document at h
  by_cases hd : isDirTarget (pathlibName f)
  · simp [hd] at h
  · simp [hd] at h
    refine ⟨h.1.symm, ?_⟩
    rw [← h.2]
    exact alistLookup_insert_self st.files (pathlibName f) c

/-- Claim C3 witness: concrete instantiation of the amended statement. -/
theorem C3_save_returns_original_witness :
    ("../../etc/passwd" : String) = "../../etc/passwd" ∧
    alistLookup (⟨["data", "documents"], [("passwd", [7])]⟩ : LocalDocumentStorage).files
      (pathlibName "../../etc/passwd") = some [7] :=
  C3_save_returns_original (freshStore ["data", "documents"]) [7] "../../etc/passwd"
    "../../etc/passwd" ⟨["data", "documents"], [("passwd", [7])]⟩ (by decide)

/-- Claim C4: deleting a just-saved filename returns true and the filename
no longer exists afterwards; deleting an absent filename returns false with
no exception for any behaviour of the medium; and when the medium fails the
removal call on an existing file, the failure is reported as a false return
(the source catches the OSError and logs a warning) with the state intact. -/
theorem C4_delete_semantics (st : LocalDocumentStorage) (c : List Nat) (f : String) :
    (∀ r st', save_document st c f = Except.ok (r, st') →
      (delete_document st' f true).1 = true ∧
      document_exists (delete_document st' f true).2 f = false) ∧
    (document_exists st f = false → ∀ ok, delete_document st f ok = (false, st)) ∧
    (document_exists st f = true → delete_document st f false = (false, st)) := by
  refine ⟨?_, ?_, ?_⟩
  · intro r st' h
    unfold save_document at h
    by_cases hd : isDirTarget (pathlibName f)
    · simp [hd] at h
    · simp [hd] at h
      refine ⟨?_, ?_⟩
      · rw [← h.2]
        unfold delete_document
        simp [hd, alistLookup_insert_self]
      · rw [← h.2]
        unfold delete_document document_exists
        simp [hd, alistLookup_insert_self, alistLookup_erase_self]
  · intro hex ok
    unfold document_exists at hex
    by_cases hd : isDirTarget (pathlibName f)
    · unfold delete_document
      simp [hd]
    · simp [hd] at hex
      unfold delete_document
      simp [hd, hex]
  · intro hex
    unfold document_exists at hex
    by_cases hd : isDirTarget (pathlibName f)
    · simp [hd] at hex
    · simp [hd] at hex
      unfold delete_document
      simp [hd, hex]

/-- Claim C4 witness: concrete delete-after-save, delete-of-absent, and
failed-removal instantiations. -/
theorem C4_delete_semantics_witness :
    ((delete_document (⟨["d"], [("a.txt", [5])]⟩ : LocalDocumentStorage) "a.txt" true).1 =
        true ∧
      document_exists
        (delete_document (⟨["d"], [("a.txt", [5])]⟩ : LocalDocumentStorage) "a.txt" true).2
        "a.txt" = false) ∧
    delete_document (freshStore ["d"]) "never.txt" true = (false, freshStore ["d"]) ∧
    delete_document (⟨["d"], [("a.txt", [5])]⟩ : LocalDocumentStorage) "a.txt" false =
      (false, ⟨["d"], [("a.txt", [5])]⟩) := by
  refine ⟨?_, ?_, ?_⟩
  · exact (C4_delete_semantics (freshStore ["d"]) [5] "a.txt").1 "a.txt"
      ⟨["d"], [("a.txt", [5])]⟩ (by decide)
  · exact (C4_delete_semantics (freshStore ["d"]) [5] "never.txt").2.1 (by decide) true
  · exact (C4_delete_semantics ⟨["d"], [("a.txt", [5])]⟩ [5] "a.txt").2.2 (by decide)

/-- Saving a batch of filenames that are already in base-name form, are
pairwise distinct, and are not yet present, appends exactly those names to
the directory listing, in order. -/
theorem saveAll_list_append (st : LocalDocumentStorage) (cf : String → List Nat)
    (fs : List String) (hnd : fs.Nodup)
    (hbase : ∀ f ∈ fs, pathlibName f = f ∧ isDirTarget f = false)
    (hfresh : ∀ f ∈ fs, alistLookup st.files f = none) :
    list_documents (saveAll st cf fs) = list_documents st ++ fs := by
  induction fs generalizing st with
  | nil => simp [saveAll]
  | cons f fs ih =>
    obtain ⟨hb, hd⟩ := hbase f (by simp)
    have hfl : alistLookup st.files f = none := hfresh f (by simp)
    have hnotmem : f ∉ fs := (List.nodup_cons.mp hnd).1
    have hstep : saveAll st cf (f :: fs) =
        saveAll ⟨st.basePath, alistInsert st.files f (cf f)⟩ cf fs := by
      have hsave : save_document st (cf f) f =
          Except.ok (f, ⟨st.basePath, alistInsert st.files f (cf f)⟩) := by
        unfold save_document
        rw [hb]
        simp [hd]
      simp only [saveAll, hsave]
    have hlist : list_documents (⟨st.basePath, alistInsert st.files f (cf f)⟩ :
        LocalDocumentStorage) = list_documents st ++ [f] := by
      unfold list_documents
      rw [alistInsert_of_lookup_none st.files f (cf f) hfl]
      simp
    have hrec := ih ⟨st.basePath, alistInsert st.files f (cf f)⟩
      (List.nodup_cons.mp hnd).2
      (fun g hg => hbase g (List.mem_cons_of_mem f hg))
      (fun g hg => by
        have hgf : g ≠ f := fun e => hnotmem (e ▸ hg)
        show alistLookup (alistInsert st.files f (cf f)) g = none
        rw [alistLookup_insert_ne st.files f g (cf f) hgf]
        exact hfresh g (List.mem_cons_of_mem f hg))
    rw [hstep, hrec, hlist]
    simp

/-- Claim C5 counterexample: the two pairwise-distinct filenames `"a"` and
`"b/a"` saved into a fresh store alias the same base name, so the listing
afterwards holds one name, not two, and the saved name `"b/a"` does not
appear in it. -/
theorem C5_counterexample :
    list_documents (saveAll (freshStore ["data", "documents"]) (fun _ => [1]) ["a", "b/a"]) =
      ["a"] ∧
    "b/a" ∉
      list_documents (saveAll (freshStore ["data", "documents"]) (fun _ => [1]) ["a", "b/a"]) := by
  decide

/-- Claim C5 as amended: for pairwise-distinct filenames that are already
in base-name form (each equal to its own base component and not a directory
target), saving them into a fresh store makes the listing exactly those
names: every saved name appears, nothing else appears, and the count is N. -/
theorem C5_list_after_saves (bp : List String) (cf : String → List Nat) (fs : List String)
    (hnd : fs.Nodup)
    (hbase : ∀ f ∈ fs, pathlibName f = f ∧ isDirTarget f = false) :
    list_documents (saveAll (freshStore bp) cf fs) = fs := by
  have h := saveAll_list_append (freshStore bp) cf fs hnd hbase
    (fun f _ => rfl)
  rw [h]
  simp [list_documents, freshStore]

/-- Claim C5 witness: two distinct base-form filenames saved into a fresh
store list back exactly as themselves. -/
theorem C5_list_after_saves_witness :
    list_documents
      (saveAll (freshStore ["d"]) (fun _ => [1]) ["doc_one.txt", "another_doc.md"]) =
      ["doc_one.txt", "another_doc.md"] :=
  C5_list_after_saves ["d"] (fun _ => [1]) ["doc_one.txt", "another_doc.md"]
    (by decide) (by decide)

/-- A rendered path of absolute components always starts with a slash. -/
theorem isAbsolutePath_renderPath (p : List String) :
    isAbsolutePath (renderPath p) = true := by
  cases p with
  | nil => decide
  | cons c rest => simp [renderPath, renderPathChars, isAbsolutePath]

/-- Claim C6: when no record exists for a filename, both content retrieval
and reference retrieval fail with not-found; when the record exists, the
reference returned is the absolute path of the record inside the root
directory (root joined with the base component of the filename). -/
theorem C6_get_errors (st : LocalDocumentStorage) (f : String) :
    (document_exists st f = false →
      get_document_content st f = Except.error StorageError.notFound ∧
      get_document_path st f = Except.error StorageError.notFound) ∧
    (document_exists st f = true →
      get_document_path st f = Except.ok (renderPath (st.basePath ++ [pathlibName f])) ∧
      isAbsolutePath (renderPath (st.basePath ++ [pathlibName f])) = true) := by
  constructor
  · intro hex
    unfold document_exists at hex
    by_cases hd : isDirTarget (pathlibName f)
    · constructor
      · unfold get_document_content
        simp [hd]
      · unfold get_document_path
        simp [hd]
    · simp [hd] at hex
      constructor
      · unfold get_document_content
        simp [hd, hex]
      · unfold get_document_path
        simp [hd, hex]
  · intro hex
    unfold document_exists at hex
    by_cases hd : isDirTarget (pathlibName f)
    · simp [hd] at hex
    · simp [hd] at hex
      constructor
      · unfold get_document_path
        simp [hd, hex]
      · exact isAbsolutePath_renderPath _

/-- Claim C6 witness: concrete not-found and found instantiations. -/
theorem C6_get_errors_witness :
    (get_document_content (freshStore ["d"]) "nope.txt" =
        Except.error StorageError.notFound ∧
      get_document_path (freshStore ["d"]) "nope.txt" =
        Except.error StorageError.notFound) ∧
    (get_document_path (⟨["d"], [("a.txt", [5])]⟩ : LocalDocumentStorage) "a.txt" =
        Except.ok (renderPath (["d"] ++ ["a.txt"])) ∧
      isAbsolutePath (renderPath (["d"] ++ ["a.txt"])) = true) := by
  constructor
  · exact (C6_get_errors (freshStore ["d"]) "nope.txt").1 (by decide)
  · exact (C6_get_errors ⟨["d"], [("a.txt", [5])]⟩ "a.txt").2 (by decide)

/-!
### Vector Index

The repository file `src/vector_db/chroma_manager.py` delegates collection
handling to the external chromadb engine: `add_documents` forwards to
`collection.add`, `query_documents` forwards to `collection.query`, and the
constructor calls `client.get_or_create_collection`.  The engine code is
not among the repository sources, so the collection semantics below are
modelled from the spec: entries keyed by caller-supplied ids, equal-length
validation on bulk insertion, duplicate-id insertion treated as overwrite
(the convention the spec documents for the underlying engine), nearest
neighbours ordered by non-decreasing distance with deterministic
(insertion-order) tie-breaking, and idempotent open-or-create of a named
persistent collection.  The embedding collaborator is abstracted as a
distance function from query text and entry text to a rational score.
-/

/-- Errors surfaced by the Vector Index: `invalidArgument` embeds malformed
calls (mismatched sequence lengths, non-positive result counts),
`ioFailure` embeds persistence-engine failures. -/
inductive ChromaError where
  | invalidArgument
  | ioFailure
deriving DecidableEq, Repr

/-- Modelled from the spec: an Indexed Entry of a collection — the
caller-supplied unique id, the text used for embedding, and an opaque
metadata mapping (modelled as string keys and scalar values rendered as
strings). -/
structure IndexedEntry where
  id : String
  text : String
  metadata : List (String × String)
deriving DecidableEq, Repr

/-- Modelled from the spec: insertion with an id that already exists
overwrites the existing entry in place (the overwrite convention of the
underlying engine); a new id is appended in insertion order. -/
def upsertEntry : List IndexedEntry → IndexedEntry → List IndexedEntry
  | [], e => [e]
  | x :: rest, e => if x.id = e.id then e :: rest else x :: upsertEntry rest e

/-- Pair up the three parallel sequences of a bulk `add` call into entries. -/
def zipEntries : List String → List (List (String × String)) → List String →
    List IndexedEntry
  | d :: ds, m :: ms, i :: is => ⟨i, d, m⟩ :: zipEntries ds ms is
  | _, _, _ => []

/-- Insert a batch of entries one by one, overwriting duplicate ids. -/
def addEntries (entries news : List IndexedEntry) : List IndexedEntry :=
  news.foldl upsertEntry entries

/-- Modelled from the spec: `ChromaDBManager.add_documents`, forwarding to
the collection-level `add` of the engine — the three sequences must have
equal length, otherwise the call fails with an invalid-argument error and
nothing is inserted; on success every entry becomes part of the collection. -/
def add_documents (entries : List IndexedEntry) (documents : List String)
    (metadatas : List (List (String × String))) (ids : List String) :
    Except ChromaError (List IndexedEntry) :=
  if documents.length = metadatas.length ∧ metadatas.length = ids.length then
    Except.ok (addEntries entries (zipEntries documents metadatas ids))
  else Except.error ChromaError.invalidArgument

/-- The collection contents after an `add` call: the new contents on
success, the untouched previous contents when the call failed. -/
def add_documents_run (entries : List IndexedEntry) (documents : List String)
    (metadatas : List (List (String × String))) (ids : List String) :
    List IndexedEntry :=
  match add_documents entries documents metadatas ids with
  | Except.ok es => es
  | Except.error _ => entries

/-- Ordering of query matches: non-decreasing distance. -/
def distLE (a b : IndexedEntry × ℚ) : Prop := a.2 ≤ b.2

instance : DecidableRel distLE := fun a b => inferInstanceAs (Decidable (a.2 ≤ b.2))

instance : IsTotal (IndexedEntry × ℚ) distLE := ⟨fun a b => le_total a.2 b.2⟩

instance : IsTrans (IndexedEntry × ℚ) distLE := ⟨fun _ _ _ h1 h2 => le_trans h1 h2⟩

/-- Modelled from the spec: the matches of one query text — every entry
scored by the distance function, sorted by non-decreasing distance with
ties kept in insertion order (insertion sort is stable), truncated to the
requested number of results. -/
def queryOne (dist : String → String → ℚ) (entries : List IndexedEntry) (t : String)
    (n : Nat) : List (IndexedEntry × ℚ) :=
  (List.insertionSort distLE (entries.map (fun e => (e, dist t e.text)))).take n

/-- Modelled from the spec: `ChromaDBManager.query_documents`, forwarding
to the engine query — a non-positive result count is an invalid-argument
error; otherwise each query text independently receives its ordered match
sequence, and an empty list of query texts yields an empty result sequence. -/
def query_documents (dist : String → String → ℚ) (entries : List IndexedEntry)
    (query_texts : List String) (n_results : Int) :
    Except ChromaError (List (List (IndexedEntry × ℚ))) :=
  if n_results ≤ 0 then Except.error ChromaError.invalidArgument
  else Except.ok (query_texts.map (fun t => queryOne dist entries t n_results.toNat))

/-- Modelled from the spec: the persistent state of the chromadb engine — a
map from (storage location, collection name) to the stored entries of that
collection. -/
structure ChromaEnv where
  collections : List ((String × String) × List IndexedEntry)
deriving DecidableEq, Repr

/-- Modelled from the spec: `client.get_or_create_collection` — return the
existing collection unchanged when present, otherwise register a fresh
empty collection under the name. -/
def get_or_create_collection (env : ChromaEnv) (db_path coll : String) :
    List IndexedEntry × ChromaEnv :=
  match alistLookup env.collections (db_path, coll) with
  | some es => (es, env)
  | none => ([], ⟨alistInsert env.collections (db_path, coll) []⟩)

/-- The manager handle of `ChromaDBManager.__init__`: the resolved storage
location, the collection name and the opened collection contents. -/
structure ChromaDBManager where
  db_path : String
  collection_name : String
  collection : List IndexedEntry
deriving DecidableEq, Repr

/-- Embeds `ChromaDBManager.__init__`: resolve the storage location with
`os.path.abspath` (an external collaborator of the process, passed as a
function) and open or create the named collection. -/
def mkChromaDBManager (abspath : String → String) (env : ChromaEnv)
    (db_path coll : String) : ChromaDBManager × ChromaEnv :=
  let p := abspath db_path
  let r := get_or_create_collection env p coll
  (⟨p, coll, r.1⟩, r.2)

/-- Manager-level add: on success the inserted entries become durably part
of the named persistent collection (the engine client is persistent); a
failed add changes neither the manager nor the persistent state. -/
def manager_add (env : ChromaEnv) (m : ChromaDBManager) (documents : List String)
    (metadatas : List (List (String × String))) (ids : List String) :
    Except ChromaError (ChromaDBManager × ChromaEnv) :=
  match add_documents m.collection documents metadatas ids with
  | Except.ok es =>
    Except.ok ({ m with collection := es },
      ⟨alistInsert env.collections (m.db_path, m.collection_name) es⟩)
  | Except.error e => Except.error e

/-- Claim C7: a bulk `add` whose three sequences do not all have equal
length fails with an invalid-argument error, and the collection contents
after the failed call are exactly the contents before it. -/
theorem C7_add_length_mismatch (entries : List IndexedEntry) (documents : List String)
    (metadatas : List (List (String × String))) (ids : List String)
    (h : ¬(documents.length = metadatas.length ∧ metadatas.length = ids.length)) :
    add_documents entries documents metadatas ids =
      Except.error ChromaError.invalidArgument ∧
    add_documents_run entries documents metadatas ids = entries := by
  have h1 : add_documents entries documents metadatas ids =
      Except.error ChromaError.invalidArgument := by
    unfold add_documents
    simp [h]
  refine ⟨h1, ?_⟩
  unfold add_documents_run
  rw [h1]

/-- Claim C7 witness: three documents with only two ids is rejected and the
collection stays empty. -/
theorem C7_add_length_mismatch_witness :
    add_documents [] ["a", "b", "c"] [[], [], []] ["i1", "i2"] =
      Except.error ChromaError.invalidArgument ∧
    add_documents_run [] ["a", "b", "c"] [[], [], []] ["i1", "i2"] = [] :=
  C7_add_length_mismatch [] ["a", "b", "c"] [[], [], []] ["i1", "i2"] (by decide)

/-- Querying with a result budget at least the collection size returns a
match for every stored entry. -/
theorem queryOne_complete (dist : String → String → ℚ) (entries : List IndexedEntry)
    (t : String) (e : IndexedEntry) (he : e ∈ entries) (n : Nat)
    (hn : entries.length ≤ n) :
    ∃ p ∈ queryOne dist entries t n, p.1 = e := by
  unfold queryOne
  rw [List.take_of_length_le]
  · refine ⟨(e, dist t e.text), ?_, rfl⟩
    apply (List.perm_insertionSort distLE _).mem_iff.mpr
    exact List.mem_map.mpr ⟨e, he, rfl⟩
  · rw [(List.perm_insertionSort distLE _).length_eq]
    simpa using hn

/-- Claim C8: for a collection of L entries and a result budget n with
1 ≤ n, a single-text query succeeds and returns exactly min(n, L) matches,
ordered by non-decreasing distance; every reported distance is
non-negative (the distance collaborator being a non-negative dissimilarity
score); and when the collection holds at most n entries, the matches cover
all L entries. -/
theorem C8_query_semantics (dist : String → String → ℚ) (entries : List IndexedEntry)
    (t : String) (n : Int) (hn : 1 ≤ n) (hdist : ∀ q s, 0 ≤ dist q s) :
    ∃ res, query_documents dist entries [t] n = Except.ok [res] ∧
      res.length = min n.toNat entries.length ∧
      List.Pairwise (fun a b : IndexedEntry × ℚ => a.2 ≤ b.2) res ∧
      (∀ p ∈ res, 0 ≤ p.2) ∧
      (entries.length ≤ n.toNat → (res.map Prod.fst).Perm entries) := by
  have hn0 : ¬ n ≤ 0 := by omega
  refine ⟨queryOne dist entries t n.toNat, ?_, ?_, ?_, ?_, ?_⟩
  · unfold query_documents
    simp [hn0]
  · unfold queryOne
    rw [List.length_take, (List.perm_insertionSort distLE _).length_eq,
      List.length_map]
  · have hs : List.Sorted distLE
        (List.insertionSort distLE (entries.map (fun e => (e, dist t e.text)))) :=
      List.sorted_insertionSort distLE _
    exact List.Pairwise.sublist (List.take_sublist _ _) hs
  · intro p hp
    have hp2 : p ∈ List.insertionSort distLE
        (entries.map (fun e => (e, dist t e.text))) :=
      (List.take_sublist _ _).subset hp
    have hp3 : p ∈ entries.map (fun e => (e, dist t e.text)) :=
      (List.perm_insertionSort distLE _).mem_iff.mp hp2
    obtain ⟨e, _, hpe⟩ := List.mem_map.mp hp3
    rw [← hpe]
    exact hdist t e.text
  · intro hle
    unfold queryOne
    rw [List.take_of_length_le]
    · have hperm := (List.perm_insertionSort distLE
        (entries.map (fun e => (e, dist t e.text)))).map Prod.fst
      have hfun : (Prod.fst ∘ fun e : IndexedEntry => (e, dist t e.text)) = id :=
        funext fun e => rfl
      rw [List.map_map, hfun, List.map_id] at hperm
      exact hperm
    · rw [(List.perm_insertionSort distLE _).length_eq]
      simpa using hle

/-- Claim C8 witness: a two-entry collection queried with budget 1 under
the constant-zero distance collaborator. -/
theorem C8_query_semantics_witness :
    ∃ res, query_documents (fun _ _ => (0 : ℚ))
        [⟨"doc0", "alpha", []⟩, ⟨"doc1", "beta", []⟩] ["q"] 1 = Except.ok [res] ∧
      res.length =
        min (1 : Int).toNat
          [⟨"doc0", "alpha", []⟩, (⟨"doc1", "beta", []⟩ : IndexedEntry)].length ∧
      List.Pairwise (fun a b : IndexedEntry × ℚ => a.2 ≤ b.2) res ∧
      (∀ p ∈ res, 0 ≤ p.2) ∧
      ([⟨"doc0", "alpha", []⟩, (⟨"doc1", "beta", []⟩ : IndexedEntry)].length ≤
          (1 : Int).toNat →
        (res.map Prod.fst).Perm [⟨"doc0", "alpha", []⟩, ⟨"doc1", "beta", []⟩]) :=
  C8_query_semantics (fun _ _ => (0 : ℚ))
    [⟨"doc0", "alpha", []⟩, ⟨"doc1", "beta", []⟩] "q" 1 (by norm_num)
    (fun _ _ => le_refl 0)

/-- Claim C9: opening or creating a collection is idempotent with respect
to its contents — after constructing the manager, adding entries (which
the persistent engine durably stores), and constructing a second manager
over the same location and name, the second manager holds exactly the
entries present after the add, and a query with a budget covering the
collection returns a match for every entry added before the second open. -/
theorem C9_reopen_preserves (abspath : String → String) (env : ChromaEnv)
    (db_path coll : String) (documents : List String)
    (metadatas : List (List (String × String))) (ids : List String)
    (dist : String → String → ℚ) (t : String)
    (m' : ChromaDBManager) (env₂ : ChromaEnv)
    (h : manager_add (mkChromaDBManager abspath env db_path coll).2
      (mkChromaDBManager abspath env db_path coll).1 documents metadatas ids =
      Except.ok (m', env₂)) :
    (mkChromaDBManager abspath env₂ db_path coll).1.collection = m'.collection ∧
    ∀ e ∈ m'.collection,
      ∃ p ∈ queryOne dist (mkChromaDBManager abspath env₂ db_path coll).1.collection t
        (mkChromaDBManager abspath env₂ db_path coll).1.collection.length,
        p.1 = e := by
  unfold manager_add at h
  cases hadd : add_documents (mkChromaDBManager abspath env db_path coll).1.collection
      documents metadatas ids with
  | error e => rw [hadd] at h; simp at h
  | ok es =>
    rw [hadd] at h
    simp at h
    have hm : m'.collection = es := by rw [← h.1]
    have henv : env₂.collections =
        alistInsert (mkChromaDBManager abspath env db_path coll).2.collections
          (abspath db_path, coll) es := by
      rw [← h.2]
      rfl
    have hopen : (mkChromaDBManager abspath env₂ db_path coll).1.collection = es := by
      unfold mkChromaDBManager get_or_create_collection
      simp only [henv]
      rw [alistLookup_insert_self]
    refine ⟨by rw [hopen, hm], ?_⟩
    intro e he
    rw [hopen]
    exact queryOne_complete dist es t e (by rw [← hm]; exact he) es.length (le_refl _)

/-- Claim C9 witness: one entry added to a freshly created collection is
still there, and still found by a query, after re-opening the collection. -/
theorem C9_reopen_preserves_witness :
    (mkChromaDBManager (fun p => p)
        (⟨[(("db", "c"), [⟨"i", "x", []⟩])]⟩ : ChromaEnv) "db" "c").1.collection =
      (⟨"db", "c", [⟨"i", "x", []⟩]⟩ : ChromaDBManager).collection ∧
    ∀ e ∈ (⟨"db", "c", [⟨"i", "x", []⟩]⟩ : ChromaDBManager).collection,
      ∃ p ∈ queryOne (fun _ _ => (0 : ℚ))
        (mkChromaDBManager (fun p => p)
          (⟨[(("db", "c"), [⟨"i", "x", []⟩])]⟩ : ChromaEnv) "db" "c").1.collection "q"
        (mkChromaDBManager (fun p => p)
          (⟨[(("db", "c"), [⟨"i", "x", []⟩])]⟩ : ChromaEnv) "db" "c").1.collection.length,
        p.1 = e :=
  C9_reopen_preserves (fun p => p) ⟨[]⟩ "db" "c" ["x"] [[]] ["i"]
    (fun _ _ => (0 : ℚ)) "q" ⟨"db", "c", [⟨"i", "x", []⟩]⟩
    ⟨[(("db", "c"), [⟨"i", "x", []⟩])]⟩ (by decide)

/-- No component produced by splitting at slashes contains a slash. -/
theorem splitSlash_mem_no_slash (l : List Char) :
    ∀ comp ∈ splitSlash l, '/' ∉ comp := by
  induction l with
  | nil =>
    intro comp hc
    simp [splitSlash] at hc
    subst hc
    simp
  | cons c rest ih =>
    intro comp hc
    unfold splitSlash at hc
    rcases hsp : splitSlash rest with _ | ⟨u, tl⟩
    · rw [hsp] at hc
      simp at hc
      subst hc
      simp
    · rw [hsp] at hc
      by_cases hcs : c = '/'
      · simp [hcs] at hc
        rcases hc with h1 | h1 | h1
        · rw [h1]; simp
        · rw [h1]
          exact ih u (by rw [hsp]; exact List.mem_cons_self _ _)
        · exact ih comp (by rw [hsp]; exact List.mem_cons_of_mem _ h1)
      · simp [hcs] at hc
        rcases hc with h1 | h1
        · subst h1
          intro hm
          rcases List.mem_cons.mp hm with h2 | h2
          · exact hcs h2.symm
          · exact ih u (by rw [hsp]; exact List.mem_cons_self _ _) h2
        · exact ih comp (by rw [hsp]; exact List.mem_cons_of_mem _ h1)

/-- Splitting a slash-free character list yields that single component. -/
theorem splitSlash_of_no_slash (l : List Char) (h : '/' ∉ l) : splitSlash l = [l] := by
  induction l with
  | nil => rfl
  | cons c rest ih =>
    have hc : c ≠ '/' := by
      intro e
      exact h (by rw [e]; exact List.mem_cons_self _ _)
    have hr : '/' ∉ rest := fun m => h (List.mem_cons_of_mem c m)
    unfold splitSlash
    rw [ih hr]
    simp [hc]

/-- The base component of a string that is already a plain component (no
slash, not the dot component) is the string itself. -/
theorem pathlibName_of_plain (n : String) (h1 : '/' ∉ n.data) (h2 : n.data ≠ ['.']) :
    pathlibName n = n := by
  obtain ⟨nd⟩ := n
  unfold pathlibName
  rw [splitSlash_of_no_slash nd h1]
  by_cases h0 : nd = []
  · subst h0
    rfl
  · simp [h0, h2]

/-- The last element of a nonempty list with a default is a member. -/
theorem getLastD_mem_cons {α : Type} (a : α) (as : List α) (d : α) :
    (a :: as).getLastD d ∈ a :: as := by
  induction as generalizing a with
  | nil => simp [List.getLastD]
  | cons b bs ih =>
    rw [List.getLastD_cons]
    exact List.mem_cons_of_mem a (ih b)

/-- The base component extracted by `pathlibName` is a plain component:
slash-free and not the dot component. -/
theorem pathlibName_plain (f : String) :
    '/' ∉ (pathlibName f).data ∧ (pathlibName f).data ≠ ['.'] := by
  have hdata : (pathlibName f).data =
      ((splitSlash f.data).filter (fun c => !(c = [] || c = ['.']))).getLastD [] := rfl
  rcases h : (splitSlash f.data).filter (fun c => !(c = [] || c = ['.'])) with _ | ⟨a, as⟩
  · rw [hdata, h]
    constructor
    · simp [List.getLastD]
    · simp [List.getLastD]
  · rw [hdata, h]
    have hmem : (a :: as).getLastD [] ∈ a :: as := getLastD_mem_cons a as []
    have hmem2 : (a :: as).getLastD [] ∈
        (splitSlash f.data).filter (fun c => !(c = [] || c = ['.'])) := by
      rw [h]; exact hmem
    have hsp := List.mem_of_mem_filter hmem2
    have hpred := List.of_mem_filter hmem2
    refine ⟨splitSlash_mem_no_slash f.data _ hsp, ?_⟩
    intro heq
    rw [heq] at hpred
    simp at hpred

/-- Taking the base component is idempotent. -/
theorem pathlibName_idem (f : String) : pathlibName (pathlibName f) = pathlibName f :=
  pathlibName_of_plain _ (pathlibName_plain f).1 (pathlibName_plain f).2

/-- Claim C10 counterexample: save applied to `"dir/x"` and to its base
component `"x"` produce the same store state but DIFFERENT results — save
echoes back the filename argument as supplied, so the two calls do not
behave identically. -/
theorem C10_counterexample :
    save_document (freshStore ["d"]) [1] "dir/x" =
      Except.ok ("dir/x", (⟨["d"], [("x", [1])]⟩ : LocalDocumentStorage)) ∧
    save_document (freshStore ["d"]) [1] "x" =
      Except.ok ("x", (⟨["d"], [("x", [1])]⟩ : LocalDocumentStorage)) ∧
    save_document (freshStore ["d"]) [1] "dir/x" ≠
      save_document (freshStore ["d"]) [1] "x" := by
  decide

/-- Claim C10 as amended: every Document Store operation EXCEPT the string
returned by save is invariant under directory prefixes in its filename
argument — content retrieval, reference retrieval, existence, deletion,
and the store-state change of save coincide for a filename and for its
base component; save differs only by echoing back the supplied filename.
After save(c, "x"), both exists("dir/x") and exists("../x") return true:
filenames sharing a base name alias the same stored record. -/
theorem C10_base_invariance (st : LocalDocumentStorage) (c : List Nat) (f : String)
    (ok : Bool) :
    get_document_content st f = get_document_content st (pathlibName f) ∧
    get_document_path st f = get_document_path st (pathlibName f) ∧
    document_exists st f = document_exists st (pathlibName f) ∧
    delete_document st f ok = delete_document st (pathlibName f) ok ∧
    (save_document st c f).map Prod.snd =
      (save_document st c (pathlibName f)).map Prod.snd ∧
    (∀ r st', save_document st c "x" = Except.ok (r, st') →
      document_exists st' "dir/x" = true ∧ document_exists st' "../x" = true) := by
  have hid := pathlibName_idem f
  refine ⟨?_, ?_, ?_, ?_, ?_, ?_⟩
  · unfold get_document_content
    rw [hid]
  · unfold get_document_path
    rw [hid]
  · unfold document_exists
    rw [hid]
  · unfold delete_document
    rw [hid]
  · unfold save_document
    rw [hid]
    by_cases hd : isDirTarget (pathlibName f)
    · simp [hd, Except.map]
    · simp [hd, Except.map]
  · intro r st' h
    unfold save_document at h
    have hx : pathlibName "x" = "x" := by decide
    have hdx : isDirTarget "x" = false := by decide
    rw [hx] at h
    simp [hdx] at h
    have h1 : pathlibName "dir/x" = "x" := by decide
    have h2 : pathlibName "../x" = "x" := by decide
    constructor
    · unfold document_exists
      rw [h1, ← h.2]
      simp [hdx, alistLookup_insert_self]
    · unfold document_exists
      rw [h2, ← h.2]
      simp [hdx, alistLookup_insert_self]

/-- Claim C10 witness: after saving under `"x"`, both `"dir/x"` and
`"../x"` report the record as existing. -/
theorem C10_base_invariance_witness :
    document_exists (⟨["d"], [("x", [9])]⟩ : LocalDocumentStorage) "dir/x" = true ∧
    document_exists (⟨["d"], [("x", [9])]⟩ : LocalDocumentStorage) "../x" = true := by
  have h := C10_base_invariance (freshStore ["d"]) [9] "dir/x" true
  exact h.2.2.2.2.2 "x" ⟨["d"], [("x", [9])]⟩ (by decide)
